import Mathlib

/-!
# Verification of the LinkedIn automation engine core

This file gives a shallow embedding, in Lean 4, of the persistence and
scheduling core of the repository (the `Database` class of
`src/utils/browserManager.js` / `database.js`, the services
`jobScraper.js`, `applicationTracker.js`, `autoApplicant.js`,
`linkedinAuth.js` and `scheduler.js`), and proves or refutes the
specified properties of that core.

Modelling conventions, fixed once for the whole file:

* The SQLite store is modelled as three in-memory tables (`Store`).
  Store operations are modelled as infallible: the JS code wraps every
  query in try/catch for I/O failures, which are outside the data model.
* Timestamps are modelled at day granularity by an `Int` (the code only
  ever compares dates with `date(...)` / `datetime('now', '-N days')`).
  Wall-clock durations (`duration_ms`) are not modelled.
* Purely textual columns that no claim touches (for example the
  `requirements` and `posted_date` columns of `jobs`) are elided; the
  columns that the claims mention are kept with the behaviour of the
  SQL statements in the source.
* Browser-side effects (navigation, DOM queries, stdin reads) are
  modelled as explicit inputs and outputs of the functions that perform
  them, so that every function stays executable.
-/

/-- Row of the `jobs` table (`CREATE TABLE jobs` in the Database class).
`job_id` is declared UNIQUE; `is_applied` defaults to FALSE and
`scraped_at` defaults to the current timestamp. -/
structure JobRow where
  jobId : String
  title : String
  company : String
  location : String
  url : String
  matchScore : Int
  isApplied : Bool
  scrapedDay : Int
  deriving Repr, DecidableEq

/-- Entry of an application status history, as pushed by
`ApplicationTracker.updateApplicationStatus`:
`{status, timestamp, previousStatus}`. -/
structure HistoryEntry where
  status : String
  timestamp : Int
  previousStatus : String
  deriving Repr, DecidableEq

/-- Row of the `applications` table. `application_id` is declared
UNIQUE; `job_id` is a plain (non-unique) foreign key. -/
structure AppRow where
  jobId : String
  applicationId : String
  status : String
  appliedDay : Int
  lastCheckedDay : Int
  statusHistory : List HistoryEntry
  recruiterContact : Option String
  notes : Option String
  deriving Repr, DecidableEq

/-- Row of the `scraping_logs` table (the RunOutcome audit log). -/
structure LogRow where
  logType : String
  status : String
  itemsProcessed : Nat
  errorsCount : Nat
  errorMessage : Option String
  deriving Repr, DecidableEq

/-- The relational store: the three tables that the claims are about.
The remaining tables (companies, recruiters, search_filters, settings)
play no role in any claim. -/
structure Store where
  jobs : List JobRow
  applications : List AppRow
  scrapingLogs : List LogRow
  deriving Repr, DecidableEq

def emptyStore : Store := ⟨[], [], []⟩

namespace Database

/-- Column values supplied to `Database.insertJob`. The INSERT lists
(job_id, title, company, location, ..., url, ..., match_score, ...);
`is_applied` and `scraped_at` are not listed and take their column
defaults (FALSE and the current timestamp). -/
structure JobInsertData where
  jobId : String
  title : String
  company : String
  location : String
  url : String
  matchScore : Int
  deriving Repr, DecidableEq

/-- Database.insertJob: INSERT OR REPLACE INTO jobs. On a `job_id`
conflict SQLite deletes the conflicting row and inserts the new one,
so the replaced row also re-takes the defaults for the unlisted
columns (`is_applied` FALSE, `scraped_at` now). -/
def insertJob (d : JobInsertData) (today : Int) (s : Store) : Store :=
  { s with jobs :=
      s.jobs.filter (fun j => !(j.jobId == d.jobId)) ++
        [⟨d.jobId, d.title, d.company, d.location, d.url, d.matchScore, false, today⟩] }

/-- Column values supplied to `Database.insertApplication`. The INSERT
lists (job_id, application_id, status, applied_at, recruiter_contact,
notes); `last_checked` and `status_history` take their defaults (the
current timestamp and NULL, modelled as an empty history). -/
structure AppInsertData where
  jobId : String
  applicationId : String
  status : String
  appliedDay : Int
  recruiterContact : Option String
  notes : Option String
  deriving Repr, DecidableEq

/-- Database.insertApplication: INSERT OR REPLACE INTO applications,
with the conflict target being the UNIQUE `application_id` column.
There is no conflict check on `job_id` and no error on an existing
application for the same job. -/
def insertApplication (d : AppInsertData) (today : Int) (s : Store) : Store :=
  { s with applications :=
      s.applications.filter (fun a => !(a.applicationId == d.applicationId)) ++
        [⟨d.jobId, d.applicationId, d.status, d.appliedDay, today, [], d.recruiterContact, d.notes⟩] }

end Database

/-- Shared helper for the statement
UPDATE jobs SET is_applied = TRUE WHERE job_id = ?, executed both by
`AutoApplicant.recordApplication` and
`ApplicationTracker.addManualApplication`. -/
def Store.markJobApplied (jobId : String) (s : Store) : Store :=
  { s with jobs := s.jobs.map (fun j =>
      if j.jobId == jobId then { j with isApplied := true } else j) }

/-- Shared helper for the INSERT INTO scraping_logs statement that all
three services execute verbatim (logScrapingSession,
logTrackingSession, logApplicationSession). -/
def Store.appendLog (logType status : String) (items errors : Nat)
    (msg : Option String) (s : Store) : Store :=
  { s with scrapingLogs := s.scrapingLogs ++ [⟨logType, status, items, errors, msg⟩] }

namespace JobScraper

/-- JobScraper.processAndSaveJob: SELECT id FROM jobs WHERE job_id = ?;
if a row exists the function logs and returns without writing, else it
calls Database.insertJob. -/
def processAndSaveJob (d : Database.JobInsertData) (today : Int) (s : Store) : Store :=
  if s.jobs.any (fun j => j.jobId == d.jobId) then s
  else Database.insertJob d today s

end JobScraper

namespace ApplicationTracker

/-- Argument object of `ApplicationTracker.addManualApplication`
(`applicationData`): every field is optional and defaulted inside the
function. -/
structure ManualApplicationData where
  applicationId : Option String
  status : Option String
  appliedDay : Option Int
  recruiterContact : Option String
  notes : Option String
  deriving Repr, DecidableEq

/-- ApplicationTracker.addManualApplication: picks
`applicationData.applicationId` or a synthetic `manual_<timestamp>` id,
calls Database.insertApplication, then marks the job applied. The
source performs no existence check for a prior Application of the same
job, and the only failure source is a database I/O error (modelled as
infallible), so the result is always `.ok`. -/
def addManualApplication (jobId : String) (d : ManualApplicationData)
    (now : Int) (s : Store) : Except String (String × Store) :=
  let applicationId := d.applicationId.getD ("manual_" ++ toString now)
  let s1 := Database.insertApplication
    ⟨jobId, applicationId, d.status.getD "Applied", d.appliedDay.getD now,
      d.recruiterContact, d.notes⟩ now s
  .ok (applicationId, s1.markJobApplied jobId)

end ApplicationTracker

/-- Generic insertion step used to model an ORDER BY clause. -/
def insertBy (le : α → α → Bool) (x : α) : List α → List α
  | [] => [x]
  | y :: ys => if le x y then x :: y :: ys else y :: insertBy le x ys

/-- Insertion sort used to model an ORDER BY clause; only stability and
length matter for the claims. -/
def insSortBy (le : α → α → Bool) : List α → List α
  | [] => []
  | x :: xs => insertBy le x (insSortBy le xs)

namespace AutoApplicant

/-- AutoApplicant.getTodayApplicationsCount:
SELECT COUNT(*) FROM applications WHERE date(applied_at) = date(now). -/
def getTodayApplicationsCount (today : Int) (s : Store) : Nat :=
  (s.applications.filter (fun a => a.appliedDay == today)).length

/-- Comparison of the ORDER BY match_score DESC, scraped_at DESC clause
of getJobsToApply. -/
def jobOrder (a b : JobRow) : Bool :=
  (decide (b.matchScore < a.matchScore)) ||
    ((a.matchScore == b.matchScore) && decide (b.scrapedDay ≤ a.scrapedDay))

/-- AutoApplicant.getJobsToApply, on the `filters = null` path (the only
one exercised in the repository: both the scheduler firing and the
manual trigger call autoApplyToJobs with no argument):
SELECT * FROM jobs WHERE is_applied = FALSE AND scraped_at more recent
than 3 days ago, ORDER BY match_score DESC, scraped_at DESC LIMIT ?. -/
def getJobsToApply (today : Int) (limit : Nat) (s : Store) : List JobRow :=
  (insSortBy jobOrder
    (s.jobs.filter (fun j => !j.isApplied && decide (today - 3 ≤ j.scrapedDay)))).take limit

/-- Result of one `applyToJob` call against the live site: the browser
world is an input of the model. `applyToJob` itself catches its own
errors and reports `success: false`, so from the loop's point of view
the three observable outcomes are success, skip, and a thrown error
(from `recordApplication` rethrowing, caught by the per-item catch). -/
inductive ApplyOutcome
  | success (applicationId method : String)
  | skipped (reason : String)
  | errored (msg : String)
  deriving Repr, DecidableEq

/-- Counter triple that autoApplyToJobs returns:
{appliedCount, skippedCount, errorsCount}. -/
structure AutoApplyResult where
  appliedCount : Nat
  skippedCount : Nat
  errorsCount : Nat
  deriving Repr, DecidableEq

/-- Observable result of one autoApplyToJobs call: its returned counters,
the store after the call, and whether `ensureLoggedIn` was reached
(it sits after the two early-return gates in the source). -/
structure AutoApplyRun where
  result : AutoApplyResult
  store : Store
  loginAttempted : Bool
  deriving Repr, DecidableEq

/-- AutoApplicant.recordApplication: insertApplication with status
Applied, applied_at now, notes describing the method, then
UPDATE jobs SET is_applied = TRUE. -/
def recordApplication (job : JobRow) (applicationId method : String)
    (today : Int) (s : Store) : Store :=
  (Database.insertApplication
    ⟨job.jobId, applicationId, "Applied", today, none,
      some ("Auto-applied via " ++ method)⟩ today s).markJobApplied job.jobId

/-- The for-loop of autoApplyToJobs over the selected jobs. Per
iteration: a success records the application and increments
appliedCount, a skip increments skippedCount, a thrown error is caught
and increments errorsCount; afterwards the loop body unconditionally
checks `appliedCount >= remainingApplications` and breaks. -/
def applyLoop (remaining : Nat) (today : Int) (outcomes : Nat → ApplyOutcome) :
    List JobRow → Nat → AutoApplyResult → Store → AutoApplyResult × Store
  | [], _, acc, s => (acc, s)
  | job :: rest, i, acc, s =>
    let step :=
      match outcomes i with
      | .success applicationId method =>
          ({ acc with appliedCount := acc.appliedCount + 1 },
           recordApplication job applicationId method today s)
      | .skipped _ =>
          ({ acc with skippedCount := acc.skippedCount + 1 }, s)
      | .errored _ =>
          ({ acc with errorsCount := acc.errorsCount + 1 }, s)
    if remaining ≤ step.1.appliedCount then step
    else applyLoop remaining today outcomes rest (i + 1) step.1 step.2

/-- AutoApplicant.autoApplyToJobs. Control flow of the source, in
order: the AUTO_APPLY_ENABLED gate (constructor reads
`process.env.AUTO_APPLY_ENABLED === 'true'`), the daily-cap gate
(`todayApplications >= maxApplicationsPerDay` returns all zeros), then
ensureLoggedIn, getJobsToApply limited to `cap - todayApplications`,
the application loop, and one scraping_logs row with status success.
Only database failures reach the catch branch and they are modelled as
infallible, so the success log line is the one taken. -/
def autoApplyToJobs (enabled : Bool) (cap : Nat) (today : Int)
    (outcomes : Nat → ApplyOutcome) (s : Store) : AutoApplyRun :=
  if !enabled then ⟨⟨0, 0, 0⟩, s, false⟩
  else
    let todayApplications := getTodayApplicationsCount today s
    if cap ≤ todayApplications then ⟨⟨0, 0, 0⟩, s, false⟩
    else
      let remaining := cap - todayApplications
      let jobs := getJobsToApply today remaining s
      let r := applyLoop remaining today outcomes jobs 0 ⟨0, 0, 0⟩ s
      ⟨r.1, (r.2).appendLog "auto_apply" "success" r.1.appliedCount r.1.errorsCount none, true⟩

/-- Mapping from the AUTO_APPLY_ENABLED environment variable to the
`autoApplyEnabled` flag set in the AutoApplicant constructor:
`process.env.AUTO_APPLY_ENABLED === 'true'`. -/
def autoApplyEnabledOf (env : Option String) : Bool :=
  env == some "true"

end AutoApplicant

namespace ApplicationTracker

/-- Status change detected for one application by
checkApplicationStatus: the new status plus optional extracted
details, and the lastChecked stamp taken when the change was seen. -/
structure StatusUpdate where
  status : String
  lastChecked : Int
  recruiterContact : Option String
  notes : Option String
  deriving Repr, DecidableEq

/-- Row written by the UPDATE of
ApplicationTracker.updateApplicationStatus: `a` is the row currently in
the table, `app` the row as read at the start of the run (the source
computes the new history and the fallback contact/notes from `app`).
SET status, last_checked, status_history, recruiter_contact, notes;
the history gains one entry {status, timestamp, previousStatus}. -/
def updatedRow (a app : AppRow) (upd : StatusUpdate) : AppRow :=
  { a with
    status := upd.status
    lastCheckedDay := upd.lastChecked
    statusHistory := app.statusHistory ++ [⟨upd.status, upd.lastChecked, app.status⟩]
    recruiterContact := upd.recruiterContact.orElse (fun _ => app.recruiterContact)
    notes := upd.notes.orElse (fun _ => app.notes) }

/-- One status update applied to an application row whose stored state
and snapshot coincide — exactly the situation of sequential tracking
runs, where every run re-reads the row before updating it. -/
def applyStatusUpdate (a : AppRow) (upd : StatusUpdate) : AppRow :=
  updatedRow a a upd

/-- ApplicationTracker.updateApplicationStatus as a store operation:
UPDATE applications SET ... WHERE application_id = ?. -/
def updateApplicationStatus (app : AppRow) (upd : StatusUpdate) (s : Store) : Store :=
  { s with applications := s.applications.map (fun a =>
      if a.applicationId == app.applicationId then updatedRow a app upd else a) }

/-- Sequential status updates to one row, one per tracking run. -/
def applyStatusUpdates (a : AppRow) : List StatusUpdate → AppRow
  | [] => a
  | u :: us => applyStatusUpdates (applyStatusUpdate a u) us

/-- Per-application result of checkApplicationStatus against the live
page: not found on the page (returns null, no write), present with an
unchanged status (refreshes last_checked, returns null), a detected
status change, or a thrown per-item error (caught by the loop, which
increments errorsCount and continues). -/
inductive TrackOutcome
  | notFound
  | unchanged
  | changed (upd : StatusUpdate)
  | errored (msg : String)
  deriving Repr, DecidableEq

/-- The for-loop of trackApplications over the applications read at the
start of the run. -/
def trackLoop (today : Int) (outcomes : Nat → TrackOutcome) :
    List AppRow → Nat → Nat → Nat → Nat → Store → Nat × Nat × Nat × Store
  | [], _, checked, updated, errors, s => (checked, updated, errors, s)
  | app :: rest, i, checked, updated, errors, s =>
    match outcomes i with
    | .notFound =>
        trackLoop today outcomes rest (i + 1) (checked + 1) updated errors s
    | .unchanged =>
        let s' := { s with applications := s.applications.map (fun a =>
          if a.applicationId == app.applicationId then { a with lastCheckedDay := today } else a) }
        trackLoop today outcomes rest (i + 1) (checked + 1) updated errors s'
    | .changed upd =>
        trackLoop today outcomes rest (i + 1) (checked + 1) (updated + 1) errors
          (updateApplicationStatus app upd s)
    | .errored _ =>
        trackLoop today outcomes rest (i + 1) checked updated (errors + 1) s

/-- ApplicationTracker.trackApplications. The source awaits
`ensureLoggedIn()` and discards its Boolean result (`_loginOk` here),
then navigates to the applications page (failure there is the only
session-level throw: it aborts the run through the catch branch, which
writes an error log row and rethrows), reads all applications ORDER BY
applied_at DESC, runs the tracking loop, and writes one success log
row. -/
def trackApplications (_loginOk : Bool) (navFails : Bool) (today : Int)
    (outcomes : Nat → TrackOutcome) (s : Store) :
    Except String (Nat × Nat × Nat) × Store :=
  if navFails then
    (.error "Failed to navigate to applications page",
     s.appendLog "application_check" "error" 0 0
       (some "Failed to navigate to applications page"))
  else
    let apps := insSortBy (fun a b => decide (b.appliedDay ≤ a.appliedDay)) s.applications
    let r := trackLoop today outcomes apps 0 0 0 0 s
    (.ok (r.1, r.2.1, r.2.2.1),
     (r.2.2.2).appendLog "application_check" "success" r.1 r.2.2.1 none)

end ApplicationTracker

/-- Challenge conditions that handleLoginChallenges probes for on the
page after a login attempt, in source order: the quick-verification
text or code input, the alternative email-challenge selectors, a
CAPTCHA, phone verification, and a PIN entry. -/
structure ChallengeFlags where
  verification : Bool
  emailAlt : Bool
  captcha : Bool
  phone : Bool
  pin : Bool
  deriving Repr, DecidableEq, Fintype

/-- Interactive-mode predicate used at every challenge site:
`!process.env.HEADLESS_MODE || process.env.HEADLESS_MODE === 'false'`
(an unset or empty variable is falsy in JS). -/
def interactiveMode (headlessEnv : Option String) : Bool :=
  match headlessEnv with
  | none => true
  | some v => v == "" || v == "false"

namespace BrowserManager

/-- BrowserManager.handleCaptcha: when a CAPTCHA container is present,
interactive mode blocks once on stdin and resumes, headless mode throws.
The wait counter threads the number of operator waits so far. -/
def handleCaptcha (interactive : Bool) (captchaPresent : Bool)
    (waits : Nat) : Except String Nat :=
  if captchaPresent then
    if interactive then .ok (waits + 1)
    else .error "CAPTCHA detected in headless mode - cannot proceed"
  else .ok waits

end BrowserManager

/-- Outcome of LinkedInAuth.handleLoginChallenges: either a thrown
error, or normal completion having blocked `operatorWaits` times on
operator input. -/
inductive ChallengeOutcome
  | threw (msg : String)
  | completed (operatorWaits : Nat)
  deriving Repr, DecidableEq

namespace LinkedInAuth

/-- LinkedInAuth.handleLoginChallenges: probes the five challenge
conditions in order; in interactive mode each detected challenge blocks
once awaiting operator input and then continues, in headless mode the
first detected challenge throws its specific error. -/
def handleLoginChallenges (interactive : Bool) (ch : ChallengeFlags) : ChallengeOutcome :=
  let r : Except String Nat := do
    let w1 ← if ch.verification then
        (if interactive then pure 1 else .error "Email verification required")
      else pure 0
    let w2 ← if ch.emailAlt then
        (if interactive then pure (w1 + 1) else .error "Email verification required")
      else pure w1
    let w3 ← BrowserManager.handleCaptcha interactive ch.captcha w2
    let w4 ← if ch.phone then
        (if interactive then pure (w3 + 1) else .error "Phone verification required")
      else pure w3
    let w5 ← if ch.pin then
        (if interactive then pure (w4 + 1) else .error "PIN verification required")
      else pure w4
    pure w5
  match r with
  | .error m => .threw m
  | .ok w => .completed w

/-- Result of one login() call inside the retry loop of ensureLoggedIn:
it returns with the logged-in flag set, returns without it (the code
keeps this branch although login() never takes it), or throws — a
challenge error from handleLoginChallenges arrives through this last
constructor like any other login failure. -/
inductive LoginAttemptOutcome
  | success
  | completedNotLoggedIn
  | threw (msg : String)
  deriving Repr, DecidableEq

/-- Observable trace of one ensureLoggedIn call: its returned Boolean,
how many times login() was called, the humanLikeDelay ranges taken
between attempts, and how many times the browser was relaunched. -/
structure EnsureLoginTrace where
  result : Bool
  loginCalls : Nat
  delays : List (Nat × Nat)
  relaunches : Nat
  deriving Repr, DecidableEq

/-- The while-loop of ensureLoggedIn, recursing on the number of
attempts still allowed (maxAttempts = 3). After an unsuccessful
non-throwing attempt the source waits 5000-10000 ms; after a thrown
attempt it waits 10000-15000 ms and relaunches the browser; both only
when another attempt remains. -/
def attemptLoop (attempts : Nat → LoginAttemptOutcome) :
    Nat → Nat → List (Nat × Nat) → Nat → EnsureLoginTrace
  | n, 0, ds, rl => ⟨false, n, ds, rl⟩
  | n, remaining + 1, ds, rl =>
    match attempts n with
    | .success => ⟨true, n + 1, ds, rl⟩
    | .completedNotLoggedIn =>
        if remaining = 0 then attemptLoop attempts (n + 1) remaining ds rl
        else attemptLoop attempts (n + 1) remaining (ds ++ [(5000, 10000)]) rl
    | .threw _ =>
        if remaining = 0 then attemptLoop attempts (n + 1) remaining ds rl
        else attemptLoop attempts (n + 1) remaining (ds ++ [(10000, 15000)]) (rl + 1)

/-- LinkedInAuth.ensureLoggedIn: returns false straight away when the
page cannot be made ready; returns true when the session is already
verified; otherwise runs the retry loop with maxAttempts = 3 and
returns false on exhaustion (it never throws: the catch branches
swallow every error into a false return). -/
def ensureLoggedIn (pageReady alreadyVerified : Bool)
    (attempts : Nat → LoginAttemptOutcome) : EnsureLoginTrace :=
  if !pageReady then ⟨false, 0, [], 0⟩
  else if alreadyVerified then ⟨true, 0, [], 0⟩
  else attemptLoop attempts 0 3 [] 0

end LinkedInAuth

namespace JobScraper

/-- JobScraper.scrapeJobListings has the signature
(page, maxJobs = 100), but both call sites invoke it with a single
argument — the configured maxJobs — which therefore lands in the `page`
parameter while maxJobs silently defaults to 100. The while guard
(0 jobs < maxJobs) passes, and the very first member access
page.waitForSelector on a Number raises a TypeError, which the catch
branch rethrows. Only a zero maxJobs would skip the loop and return the
empty job list. -/
def scrapeJobListings (pageArg : Nat) (maxJobs : Nat := 100) :
    Except String (List Database.JobInsertData) :=
  if maxJobs = 0 then .ok []
  else
    let _ := pageArg
    .error "page.waitForSelector is not a function"

/-- JobScraper.scrapeJobs. In source order: ensureLoggedIn (Boolean
result discarded), navigateToJobs (throws "Not logged in to LinkedIn"
when the login failed), applySearchFilters (its only uncaught throw is
searchByKeywords failing to find the search input, and only when
keywords are configured), then `this.scrapeJobListings(filters.maxJobs)`
— one argument, see scrapeJobListings — then per-job processAndSaveJob
with a per-item catch, and one scraping_logs row: status success on
normal completion, status error (with the message) in the catch branch
before rethrowing. -/
def scrapeJobs (loginOk : Bool) (keywords : List String)
    (searchInputFound : Bool) (maxJobsCfg : Nat) (today : Int) (s : Store) :
    Except String (List Database.JobInsertData) × Store :=
  if !loginOk then
    (.error "Not logged in to LinkedIn",
     s.appendLog "job_scrape" "error" 0 0 (some "Not logged in to LinkedIn"))
  else if !keywords.isEmpty && !searchInputFound then
    (.error "Could not find job search input",
     s.appendLog "job_scrape" "error" 0 0 (some "Could not find job search input"))
  else
    match scrapeJobListings maxJobsCfg with
    | .error msg => (.error msg, s.appendLog "job_scrape" "error" 0 0 (some msg))
    | .ok jobs =>
        let s' := jobs.foldl (fun st j => processAndSaveJob j today st) s
        (.ok jobs, s'.appendLog "job_scrape" "success" jobs.length 0 none)

end JobScraper

namespace Scheduler

/-- Executions of task kinds currently in flight, as a multiset of kind
names. The Scheduler object itself owns only the timer map `jobs` and
the scheduler-level `isRunning` flag; it keeps no record of an
execution being in progress. -/
structure TasksState where
  inFlight : List String
  deriving Repr, DecidableEq

/-- Events of the scheduling model. `fire kind` is a cron tick of the
registered timer for `kind` or a manual trigger call: in both
the source paths (the cron callbacks of scheduleJobScraping et al. and
the triggerJobScraping et al. methods) the task body is invoked
unconditionally — no field of the Scheduler is consulted before calling
it. `complete kind` is one running task body finishing. -/
inductive SchedEvent
  | fire (kind : String)
  | complete (kind : String)
  deriving Repr, DecidableEq

/-- Effect of one event on the in-flight multiset: a firing always
starts a new execution of its kind (the source has no in-flight check
to skip it); a completion removes one. -/
def stepEvent : SchedEvent → TasksState → TasksState
  | .fire kind, s => ⟨kind :: s.inFlight⟩
  | .complete kind, s => ⟨s.inFlight.erase kind⟩

/-- A sequence of firings and completions applied in order. -/
def runEvents (events : List SchedEvent) (s : TasksState) : TasksState :=
  events.foldl (fun st e => stepEvent e st) s

/-- Number of concurrently running executions of one task kind. -/
def concurrent (s : TasksState) (kind : String) : Nat :=
  s.inFlight.count kind

/-- The task kinds registered by Scheduler.start(). -/
def taskKinds : List String :=
  ["jobScraping", "applicationTracking", "companyScraping", "autoApplication", "dailyTasks"]

end Scheduler

/-! Specification helpers (statement vocabulary for the theorems). -/

/-- Disjunction of the five challenge conditions probed by
handleLoginChallenges. -/
def anyChallenge (ch : ChallengeFlags) : Bool :=
  ch.verification || ch.emailAlt || ch.captcha || ch.phone || ch.pin

/-- The challenge-specific error messages thrown in headless mode, one
per challenge kind (CAPTCHA handling lives in
BrowserManager.handleCaptcha, the rest in handleLoginChallenges). -/
def challengeErrorMessages : List String :=
  ["Email verification required",
   "CAPTCHA detected in headless mode - cannot proceed",
   "Phone verification required",
   "PIN verification required"]

/-- Predicate: the outcome is a thrown error carrying one of the
challenge-specific messages. -/
def isChallengeThrow : ChallengeOutcome → Bool
  | .threw m => challengeErrorMessages.contains m
  | .completed _ => false

/-- Predicate: the outcome is a normal completion that blocked on
operator input at least once. -/
def blockedAtLeastOnce : ChallengeOutcome → Bool
  | .threw _ => false
  | .completed n => decide (1 ≤ n)

/-- Default entry used with List.getD when indexing a status history. -/
def histDefault : HistoryEntry := ⟨"", 0, ""⟩

/-- The history produced by a sequence of status updates starting from
status `s0`: each update contributes one entry whose previousStatus is
the status carried forward so far. -/
def statusChainFrom (s0 : String) : List ApplicationTracker.StatusUpdate → List HistoryEntry
  | [] => []
  | u :: us => ⟨u.status, u.lastChecked, s0⟩ :: statusChainFrom u.status us

/-! Concrete fixtures used by witnesses and counterexamples. -/

def c3First : Database.JobInsertData := ⟨"123", "Engineer", "Acme", "Remote", "urlA", 40⟩

def c3Second : Database.JobInsertData := ⟨"123", "Engineer", "Acme", "Remote", "urlA", 85⟩

def c4Store : Store :=
  ⟨[⟨"J1", "Engineer", "Acme", "", "", 50, true, 0⟩],
   [⟨"J1", "manual_1", "Applied", 0, 0, [], none, none⟩], []⟩

def c4Data : ApplicationTracker.ManualApplicationData :=
  ⟨some "manual_2", none, none, none, none⟩

def capStoreC1 : Store :=
  ⟨[], [⟨"J1", "a1", "Applied", 0, 0, [], none, none⟩,
        ⟨"J2", "a2", "Applied", 0, 0, [], none, none⟩], []⟩

def witApplyOutcomesC1 : Nat → AutoApplicant.ApplyOutcome :=
  fun _ => .success "easy_apply_1" "easy_apply"

def witOutcomesC10 : Nat → AutoApplicant.ApplyOutcome :=
  fun _ => .success "easy_apply_2" "easy_apply"

def c8Store : Store :=
  ⟨[], [⟨"J1", "auto_1", "Applied", 0, 0, [], none, none⟩], []⟩

def cexApplyOutcomes : Nat → AutoApplicant.ApplyOutcome :=
  fun _ => .skipped "already applied"

def wAppC9 : AppRow := ⟨"J1", "app_1", "Applied", 0, 0, [], none, none⟩

def wUpdatesC9 : List ApplicationTracker.StatusUpdate :=
  [⟨"Application viewed", 1, none, none⟩, ⟨"Rejected", 2, none, none⟩]

def cexSchedTrace : List Scheduler.SchedEvent :=
  [.fire "jobScraping", .fire "jobScraping"]

def cexLoginAttempts : Nat → LinkedInAuth.LoginAttemptOutcome :=
  fun _ => .threw "Email verification required"

def witAttemptsC6 : Nat → LinkedInAuth.LoginAttemptOutcome :=
  fun _ => .success

def cexTrackOutcomesC6 : Nat → ApplicationTracker.TrackOutcome :=
  fun _ => .notFound

def c6Store : Store :=
  ⟨[], [⟨"J1", "a1", "Applied", 0, 0, [], none, none⟩], []⟩

/-- Store produced by replaying addManualApplication "J1" c4Data on
c4Store: the original Application for J1 survives and a second one is
appended. -/
def c4ResultStore : Store :=
  ⟨[⟨"J1", "Engineer", "Acme", "", "", 50, true, 0⟩],
   [⟨"J1", "manual_1", "Applied", 0, 0, [], none, none⟩,
    ⟨"J1", "manual_2", "Applied", 1, 1, [], none, none⟩], []⟩

/-!
## Theorems

Helper lemmas come first; each claim then gets exactly one theorem,
with a witness or counterexample where required.
-/

/-- An INSERT OR REPLACE leaves exactly one row for the inserted key,
carrying the inserted attributes and the column defaults. -/
theorem insertJob_key_filter (d : Database.JobInsertData) (today : Int) (s : Store) :
    ((Database.insertJob d today s).jobs.filter (fun j => j.jobId == d.jobId))
      = [⟨d.jobId, d.title, d.company, d.location, d.url, d.matchScore, false, today⟩] := by
  unfold Database.insertJob
  rw [List.filter_append, List.filter_filter]
  have h1 : s.jobs.filter (fun a => (a.jobId == d.jobId) && !(a.jobId == d.jobId)) = [] := by
    apply List.filter_eq_nil_iff.mpr
    intro a _
    cases hba : a.jobId == d.jobId <;> simp [hba]
  rw [h1]
  simp

/-- C3 (amended): the jobs table always keeps exactly one row per
job_id. Through Database.insertJob (INSERT OR REPLACE) a second insert
of the same job_id is last-write-wins: the surviving row carries the
second insert's attributes. But the scraping path
JobScraper.processAndSaveJob checks existence first and returns without
writing whenever the job_id is already present, so a second scrape of
an existing job leaves the stored attributes unchanged. -/
theorem job_upsert_amended (s : Store) (d1 d2 : Database.JobInsertData) (t1 t2 : Int)
    (_hid : d1.jobId = d2.jobId) :
    ((Database.insertJob d2 t2 (Database.insertJob d1 t1 s)).jobs.filter
        (fun j => j.jobId == d2.jobId))
      = [⟨d2.jobId, d2.title, d2.company, d2.location, d2.url, d2.matchScore, false, t2⟩]
    ∧ ∀ d : Database.JobInsertData, ∀ t : Int, ∀ st : Store,
        st.jobs.any (fun j => j.jobId == d.jobId) = true →
          JobScraper.processAndSaveJob d t st = st := by
  constructor
  · exact insertJob_key_filter d2 t2 _
  · intro d t st h
    unfold JobScraper.processAndSaveJob
    simp [h]

/-- C3 counterexample: the job of the specification scenario is scraped
twice, the second scrape carrying matchScore 85; the claimed
last-write-wins upsert would leave 85, but the stored row still has
matchScore 40 because processAndSaveJob skips existing job_ids. -/
theorem job_upsert_cex :
    ((JobScraper.processAndSaveJob c3Second 1
        (JobScraper.processAndSaveJob c3First 0 emptyStore)).jobs.map
      (fun j => (j.jobId, j.matchScore))) = [("123", 40)] := by decide

/-- Witness for job_upsert_amended at the scenario input. -/
theorem job_upsert_amended_witness :
    c3First.jobId = c3Second.jobId
    ∧ ((Database.insertJob c3Second 1 (Database.insertJob c3First 0 emptyStore)).jobs.filter
        (fun j => j.jobId == c3Second.jobId))
      = [⟨"123", "Engineer", "Acme", "Remote", "urlA", 85, false, 1⟩]
    ∧ JobScraper.processAndSaveJob c3Second 1 (Database.insertJob c3First 0 emptyStore)
        = Database.insertJob c3First 0 emptyStore := by
  refine ⟨rfl, ?_, ?_⟩
  · exact ((job_upsert_amended emptyStore c3First c3Second 0 1 rfl).1).trans (by decide)
  · exact (job_upsert_amended emptyStore c3First c3Second 0 1 rfl).2 c3Second 1 _ (by decide)

/-- C4 (amended): addManualApplication performs no existence check for
a prior Application of the same Job and INSERT OR REPLACE raises no
conflict error, so it always succeeds; when the chosen application_id
is fresh, a Job that already has an Application ends up with two
Applications in the store; the is_applied flag of the Job is set (and
therefore remains) true. -/
theorem manual_application_amended (jobId : String)
    (d : ApplicationTracker.ManualApplicationData) (now : Int) (s : Store)
    (hex : ∃ a ∈ s.applications, a.jobId = jobId)
    (hfresh : ∀ a ∈ s.applications,
        a.applicationId ≠ d.applicationId.getD ("manual_" ++ toString now)) :
    ∃ s' : Store,
      ApplicationTracker.addManualApplication jobId d now s
          = .ok (d.applicationId.getD ("manual_" ++ toString now), s')
      ∧ 2 ≤ (s'.applications.filter (fun a => a.jobId == jobId)).length
      ∧ ∀ j ∈ s'.jobs, j.jobId = jobId → j.isApplied = true := by
  refine ⟨_, rfl, ?_, ?_⟩
  · show 2 ≤ (((Database.insertApplication _ now s).markJobApplied jobId).applications.filter
      (fun a => a.jobId == jobId)).length
    have happs : ((Database.insertApplication
        ⟨jobId, d.applicationId.getD ("manual_" ++ toString now), d.status.getD "Applied",
          d.appliedDay.getD now, d.recruiterContact, d.notes⟩ now s).markJobApplied jobId).applications
        = s.applications ++
          [⟨jobId, d.applicationId.getD ("manual_" ++ toString now), d.status.getD "Applied",
            d.appliedDay.getD now, now, [], d.recruiterContact, d.notes⟩] := by
      show (s.applications.filter _) ++ _ = _
      have hself : s.applications.filter
          (fun a => !(a.applicationId == d.applicationId.getD ("manual_" ++ toString now)))
          = s.applications := by
        apply List.filter_eq_self.mpr
        intro a ha
        simp only [Bool.not_eq_true', beq_eq_false_iff_ne]
        exact hfresh a ha
      rw [hself]
    rw [happs, List.filter_append]
    obtain ⟨a, ha, hajob⟩ := hex
    have hmem : a ∈ s.applications.filter (fun x => x.jobId == jobId) :=
      List.mem_filter.mpr ⟨ha, by simp [hajob]⟩
    have h1 : 0 < (s.applications.filter (fun x => x.jobId == jobId)).length :=
      List.length_pos.mpr (List.ne_nil_of_mem hmem)
    have h2 : ([⟨jobId, d.applicationId.getD ("manual_" ++ toString now), d.status.getD "Applied",
        d.appliedDay.getD now, now, [], d.recruiterContact, d.notes⟩] : List AppRow).filter
        (fun x => x.jobId == jobId) = [⟨jobId, d.applicationId.getD ("manual_" ++ toString now),
          d.status.getD "Applied", d.appliedDay.getD now, now, [], d.recruiterContact, d.notes⟩] := by
      simp
    rw [h2, List.length_append]
    simp only [List.length_cons, List.length_nil]
    omega
  · intro j hj hjid
    have hjobs : j ∈ s.jobs.map (fun x =>
        if x.jobId == jobId then { x with isApplied := true } else x) := hj
    obtain ⟨x, _, rfl⟩ := List.mem_map.1 hjobs
    cases hxb : x.jobId == jobId
    · exfalso
      rw [hxb] at hjid
      simp at hjid
      exact (beq_eq_false_iff_ne.mp hxb) hjid
    · simp [hxb]

/-- C4 counterexample: the Job J1 already has Application manual_1 and
is_applied is true; a second manual Application manual_2 for the same
Job succeeds (no conflict error is raised) and the store ends up with
two Applications for J1. -/
theorem duplicate_application_cex :
    ApplicationTracker.addManualApplication "J1" c4Data 1 c4Store
      = .ok ("manual_2", c4ResultStore)
    ∧ (c4ResultStore.applications.filter (fun a => a.jobId == "J1")).length = 2 := by
  constructor
  · rfl
  · decide

/-- Witness for manual_application_amended at the concrete store. -/
theorem manual_application_amended_witness :
    (∃ a ∈ c4Store.applications, a.jobId = "J1")
    ∧ ∃ s' : Store,
        ApplicationTracker.addManualApplication "J1" c4Data 1 c4Store = .ok ("manual_2", s')
        ∧ 2 ≤ (s'.applications.filter (fun a => a.jobId == "J1")).length := by
  refine ⟨by decide, ?_⟩
  obtain ⟨s', h1, h2, _⟩ := manual_application_amended "J1" c4Data 1 c4Store (by decide) (by decide)
  exact ⟨s', h1, h2⟩

/-- Store.appendLog leaves the applications table unchanged. -/
theorem appendLog_applications (logType status : String) (items errors : Nat)
    (msg : Option String) (s : Store) :
    (s.appendLog logType status items errors msg).applications = s.applications := rfl

/-- Store.appendLog adds exactly one log row. -/
theorem appendLog_logs_length (logType status : String) (items errors : Nat)
    (msg : Option String) (s : Store) :
    (s.appendLog logType status items errors msg).scrapingLogs.length
      = s.scrapingLogs.length + 1 := by
  simp [Store.appendLog]

/-- recordApplication adds at most one application row (exactly one
when the application_id is fresh; the REPLACE case nets zero). -/
theorem recordApplication_apps_le (job : JobRow) (applicationId method : String)
    (today : Int) (s : Store) :
    ((AutoApplicant.recordApplication job applicationId method today s).applications).length
      ≤ s.applications.length + 1 := by
  unfold AutoApplicant.recordApplication Database.insertApplication Store.markJobApplied
  simp only [List.length_append, List.length_cons, List.length_nil]
  have := List.length_filter_le (fun a : AppRow => !(a.applicationId == applicationId))
    s.applications
  omega

/-- recordApplication does not touch the scraping_logs table. -/
theorem recordApplication_logs (job : JobRow) (applicationId method : String)
    (today : Int) (s : Store) :
    ((AutoApplicant.recordApplication job applicationId method today s).scrapingLogs)
      = s.scrapingLogs := rfl

/-- The auto-apply loop never pushes appliedCount past the remaining
budget: the break after each iteration stops it at the budget. -/
theorem applyLoop_applied_le (remaining : Nat) (today : Int)
    (outcomes : Nat → AutoApplicant.ApplyOutcome) :
    ∀ jobs : List JobRow, ∀ i : Nat, ∀ acc : AutoApplicant.AutoApplyResult, ∀ s : Store,
      acc.appliedCount < remaining →
        ((AutoApplicant.applyLoop remaining today outcomes jobs i acc s).1).appliedCount
          ≤ remaining := by
  intro jobs
  induction jobs with
  | nil =>
      intro i acc s h
      simpa [AutoApplicant.applyLoop] using Nat.le_of_lt h
  | cons job rest ih =>
      intro i acc s h
      simp only [AutoApplicant.applyLoop]
      cases houtcome : outcomes i with
      | success applicationId method =>
          split
          · next hstop =>
              dsimp only
              dsimp only at hstop
              omega
          · next hgo =>
              dsimp only at hgo
              have h1 := ih (i + 1) { acc with appliedCount := acc.appliedCount + 1 }
                (AutoApplicant.recordApplication job applicationId method today s)
              dsimp only at h1
              exact h1 (by omega)
      | skipped reason =>
          split
          · next hstop =>
              dsimp only
              exact Nat.le_of_lt h
          · next hgo =>
              have h1 := ih (i + 1) { acc with skippedCount := acc.skippedCount + 1 } s
              dsimp only at h1
              exact h1 h
      | errored msg =>
          split
          · next hstop =>
              dsimp only
              exact Nat.le_of_lt h
          · next hgo =>
              have h1 := ih (i + 1) { acc with errorsCount := acc.errorsCount + 1 } s
              dsimp only at h1
              exact h1 h

/-- Application rows grow by at most the growth of appliedCount during
the auto-apply loop. -/
theorem applyLoop_apps_length (remaining : Nat) (today : Int)
    (outcomes : Nat → AutoApplicant.ApplyOutcome) :
    ∀ jobs : List JobRow, ∀ i : Nat, ∀ acc : AutoApplicant.AutoApplyResult, ∀ s : Store,
      ((AutoApplicant.applyLoop remaining today outcomes jobs i acc s).2).applications.length
          + acc.appliedCount
        ≤ s.applications.length
          + ((AutoApplicant.applyLoop remaining today outcomes jobs i acc s).1).appliedCount := by
  intro jobs
  induction jobs with
  | nil =>
      intro i acc s
      simp [AutoApplicant.applyLoop]
  | cons job rest ih =>
      intro i acc s
      simp only [AutoApplicant.applyLoop]
      cases houtcome : outcomes i with
      | success applicationId method =>
          split
          · dsimp only
            have hrec := recordApplication_apps_le job applicationId method today s
            omega
          · dsimp only
            have h1 := ih (i + 1) { acc with appliedCount := acc.appliedCount + 1 }
              (AutoApplicant.recordApplication job applicationId method today s)
            have h2 := recordApplication_apps_le job applicationId method today s
            dsimp only at h1
            omega
      | skipped reason =>
          split
          · dsimp only
            omega
          · dsimp only
            have h1 := ih (i + 1) { acc with skippedCount := acc.skippedCount + 1 } s
            dsimp only at h1
            omega
      | errored msg =>
          split
          · dsimp only
            omega
          · dsimp only
            have h1 := ih (i + 1) { acc with errorsCount := acc.errorsCount + 1 } s
            dsimp only at h1
            omega

/-- The auto-apply loop never writes scraping_logs rows. -/
theorem applyLoop_logs (remaining : Nat) (today : Int)
    (outcomes : Nat → AutoApplicant.ApplyOutcome) :
    ∀ jobs : List JobRow, ∀ i : Nat, ∀ acc : AutoApplicant.AutoApplyResult, ∀ s : Store,
      ((AutoApplicant.applyLoop remaining today outcomes jobs i acc s).2).scrapingLogs
        = s.scrapingLogs := by
  intro jobs
  induction jobs with
  | nil => intro i acc s; rfl
  | cons job rest ih =>
      intro i acc s
      simp only [AutoApplicant.applyLoop]
      cases houtcome : outcomes i <;> simp only [houtcome] <;> split
      · exact recordApplication_logs _ _ _ _ _
      · exact (ih _ _ _).trans (recordApplication_logs _ _ _ _ _)
      · rfl
      · exact ih _ _ _
      · rfl
      · exact ih _ _ _

/-- C1: daily cap enforcement of autoApplyToJobs. With k Applications
already recorded today and cap N: the run records at most N - k new
appliedCount, the applications table grows by at most N - k rows, and
when k has already reached N the call returns the all-zero outcome
immediately, leaving the store untouched and never reaching
ensureLoggedIn. -/
theorem auto_apply_daily_cap (enabled : Bool) (cap : Nat) (today : Int)
    (outcomes : Nat → AutoApplicant.ApplyOutcome) (s : Store) :
    ((AutoApplicant.autoApplyToJobs enabled cap today outcomes s).result).appliedCount
        ≤ cap - AutoApplicant.getTodayApplicationsCount today s
    ∧ ((AutoApplicant.autoApplyToJobs enabled cap today outcomes s).store).applications.length
        ≤ s.applications.length + (cap - AutoApplicant.getTodayApplicationsCount today s)
    ∧ (cap ≤ AutoApplicant.getTodayApplicationsCount today s →
        AutoApplicant.autoApplyToJobs enabled cap today outcomes s = ⟨⟨0, 0, 0⟩, s, false⟩) := by
  cases enabled with
  | false =>
      refine ⟨?_, ?_, fun _ => ?_⟩ <;> simp [AutoApplicant.autoApplyToJobs]
  | true =>
      by_cases hcap : cap ≤ AutoApplicant.getTodayApplicationsCount today s
      · have hrun : AutoApplicant.autoApplyToJobs true cap today outcomes s
            = ⟨⟨0, 0, 0⟩, s, false⟩ := by
          simp [AutoApplicant.autoApplyToJobs, hcap]
        rw [hrun]
        exact ⟨Nat.zero_le _, Nat.le_add_right _ _, fun _ => rfl⟩
      · have h0 : 0 < cap - AutoApplicant.getTodayApplicationsCount today s := by omega
        refine ⟨?_, ?_, fun hc => absurd hc hcap⟩
        · simp only [AutoApplicant.autoApplyToJobs, Bool.not_true, Bool.false_eq_true,
            if_false, if_neg hcap]
          exact applyLoop_applied_le _ today outcomes _ 0 ⟨0, 0, 0⟩ s h0
        · simp only [AutoApplicant.autoApplyToJobs, Bool.not_true, Bool.false_eq_true,
            if_false, if_neg hcap, appendLog_applications]
          have h1 := applyLoop_apps_length (cap - AutoApplicant.getTodayApplicationsCount today s)
            today outcomes (AutoApplicant.getJobsToApply today
              (cap - AutoApplicant.getTodayApplicationsCount today s) s) 0 ⟨0, 0, 0⟩ s
          have h2 := applyLoop_applied_le (cap - AutoApplicant.getTodayApplicationsCount today s)
            today outcomes (AutoApplicant.getJobsToApply today
              (cap - AutoApplicant.getTodayApplicationsCount today s) s) 0 ⟨0, 0, 0⟩ s h0
          simp at h1
          omega

/-- Witness for auto_apply_daily_cap: cap 2, two Applications already
recorded today, five-or-any eligible jobs: the call returns all zeros
without touching the store. -/
theorem auto_apply_daily_cap_witness :
    2 ≤ AutoApplicant.getTodayApplicationsCount 0 capStoreC1
    ∧ AutoApplicant.autoApplyToJobs true 2 0 witApplyOutcomesC1 capStoreC1
        = ⟨⟨0, 0, 0⟩, capStoreC1, false⟩ :=
  ⟨by decide, (auto_apply_daily_cap true 2 0 witApplyOutcomesC1 capStoreC1).2.2 (by decide)⟩

/-- C10: with AUTO_APPLY_ENABLED anything other than the string true,
autoApplyToJobs returns the all-zero outcome at once: the store is
returned unchanged (no application rows, no job updates, no
scraping_logs row) and ensureLoggedIn is never reached. -/
theorem auto_apply_disabled_frame (env : Option String) (h : env ≠ some "true")
    (cap : Nat) (today : Int) (outcomes : Nat → AutoApplicant.ApplyOutcome) (s : Store) :
    AutoApplicant.autoApplyToJobs (AutoApplicant.autoApplyEnabledOf env) cap today outcomes s
      = ⟨⟨0, 0, 0⟩, s, false⟩ := by
  have hb : AutoApplicant.autoApplyEnabledOf env = false := by
    unfold AutoApplicant.autoApplyEnabledOf
    simpa using h
  rw [hb]
  rfl

/-- Witness for auto_apply_disabled_frame with the variable unset. -/
theorem auto_apply_disabled_frame_witness :
    (none : Option String) ≠ some "true"
    ∧ AutoApplicant.autoApplyToJobs (AutoApplicant.autoApplyEnabledOf none) 5 0
        witOutcomesC10 emptyStore = ⟨⟨0, 0, 0⟩, emptyStore, false⟩ :=
  ⟨by decide, auto_apply_disabled_frame none (by decide) 5 0 witOutcomesC10 emptyStore⟩

/-- The tracking loop never writes scraping_logs rows. -/
theorem trackLoop_logs (today : Int) (outcomes : Nat → ApplicationTracker.TrackOutcome) :
    ∀ apps : List AppRow, ∀ i c u e : Nat, ∀ s : Store,
      ((ApplicationTracker.trackLoop today outcomes apps i c u e s).2.2.2).scrapingLogs
        = s.scrapingLogs := by
  intro apps
  induction apps with
  | nil => intro i c u e s; rfl
  | cons app rest ih =>
      intro i c u e s
      simp only [ApplicationTracker.trackLoop]
      cases houtcome : outcomes i with
      | notFound => exact ih _ _ _ _ _
      | unchanged => exact (ih _ _ _ _ _).trans rfl
      | changed upd => exact (ih _ _ _ _ _).trans rfl
      | errored msg => exact ih _ _ _ _ _

/-- C8 (amended): scrapeJobs and trackApplications persist exactly one
RunOutcome row per run, on the success path and on the failing path
alike (the row is written before the error propagates). autoApplyToJobs
persists exactly one row only for runs that pass its two entry gates:
a run that returns early because the feature is disabled or because the
daily cap is already reached completes silently, with no
scraping_logs row. -/
theorem run_outcome_amended :
    (∀ loginOk : Bool, ∀ keywords : List String, ∀ searchInputFound : Bool,
      ∀ maxJobsCfg : Nat, ∀ today : Int, ∀ s : Store,
        ((JobScraper.scrapeJobs loginOk keywords searchInputFound maxJobsCfg today s).2).scrapingLogs.length
          = s.scrapingLogs.length + 1)
    ∧ (∀ loginOk navFails : Bool, ∀ today : Int,
        ∀ outcomes : Nat → ApplicationTracker.TrackOutcome, ∀ s : Store,
        ((ApplicationTracker.trackApplications loginOk navFails today outcomes s).2).scrapingLogs.length
          = s.scrapingLogs.length + 1)
    ∧ ∀ enabled : Bool, ∀ cap : Nat, ∀ today : Int,
        ∀ outcomes : Nat → AutoApplicant.ApplyOutcome, ∀ s : Store,
        ((AutoApplicant.autoApplyToJobs enabled cap today outcomes s).store).scrapingLogs.length
          = s.scrapingLogs.length
            + (if enabled = true ∧ AutoApplicant.getTodayApplicationsCount today s < cap
                then 1 else 0) := by
  refine ⟨?_, ?_, ?_⟩
  · intro loginOk keywords searchInputFound maxJobsCfg today s
    cases loginOk with
    | false => simp [JobScraper.scrapeJobs, Store.appendLog]
    | true =>
        cases hkb : (!keywords.isEmpty && !searchInputFound) with
        | true => simp [JobScraper.scrapeJobs, hkb, Store.appendLog]
        | false => simp [JobScraper.scrapeJobs, hkb, JobScraper.scrapeJobListings, Store.appendLog]
  · intro loginOk navFails today outcomes s
    cases navFails with
    | true => simp [ApplicationTracker.trackApplications, Store.appendLog]
    | false =>
        simp only [ApplicationTracker.trackApplications, Bool.false_eq_true, if_false,
          appendLog_logs_length]
        rw [trackLoop_logs]
  · intro enabled cap today outcomes s
    cases enabled with
    | false => simp [AutoApplicant.autoApplyToJobs]
    | true =>
        by_cases hcap : cap ≤ AutoApplicant.getTodayApplicationsCount today s
        · have hnl : ¬ (AutoApplicant.getTodayApplicationsCount today s < cap) :=
            Nat.not_lt.mpr hcap
          simp [AutoApplicant.autoApplyToJobs, hcap, hnl]
        · have hlt : AutoApplicant.getTodayApplicationsCount today s < cap :=
            Nat.not_le.mp hcap
          simp only [AutoApplicant.autoApplyToJobs, Bool.not_true, Bool.false_eq_true,
            if_false, if_neg hcap, appendLog_logs_length]
          rw [applyLoop_logs]
          simp [hlt]

/-- C8 counterexample: auto-apply is enabled, the daily cap (1) is
already reached; the run completes normally with the all-zero outcome
and the scraping_logs table is still empty afterwards — a silent run
completion. -/
theorem run_outcome_silent_cex :
    AutoApplicant.autoApplyToJobs true 1 0 cexApplyOutcomes c8Store
      = ⟨⟨0, 0, 0⟩, c8Store, false⟩
    ∧ (AutoApplicant.autoApplyToJobs true 1 0 cexApplyOutcomes c8Store).store.scrapingLogs = [] := by
  exact ⟨rfl, rfl⟩

/-- Iterated status updates append the chain of entries generated from
the starting status. -/
theorem applyStatusUpdates_history :
    ∀ us : List ApplicationTracker.StatusUpdate, ∀ a : AppRow,
      (ApplicationTracker.applyStatusUpdates a us).statusHistory
        = a.statusHistory ++ statusChainFrom a.status us := by
  intro us
  induction us with
  | nil => intro a; simp [ApplicationTracker.applyStatusUpdates, statusChainFrom]
  | cons u us ih =>
      intro a
      simp only [ApplicationTracker.applyStatusUpdates, statusChainFrom]
      rw [ih]
      simp [ApplicationTracker.applyStatusUpdate, ApplicationTracker.updatedRow,
        List.append_assoc]

/-- One chain entry per update. -/
theorem statusChainFrom_length :
    ∀ us : List ApplicationTracker.StatusUpdate, ∀ s0 : String,
      (statusChainFrom s0 us).length = us.length := by
  intro us
  induction us with
  | nil => intro s0; rfl
  | cons u us ih => intro s0; simp [statusChainFrom, ih]

/-- Adjacent chain entries are linked: each entry records the previous
entry's status as its previousStatus. -/
theorem statusChainFrom_chain :
    ∀ us : List ApplicationTracker.StatusUpdate, ∀ s0 : String, ∀ i : Nat,
      i + 1 < (statusChainFrom s0 us).length →
        ((statusChainFrom s0 us).getD (i + 1) histDefault).previousStatus
          = ((statusChainFrom s0 us).getD i histDefault).status := by
  intro us
  induction us with
  | nil => intro s0 i h; simp [statusChainFrom] at h
  | cons u us ih =>
      intro s0 i h
      cases us with
      | nil => simp [statusChainFrom] at h
      | cons u2 us2 =>
          cases i with
          | zero => simp [statusChainFrom, List.getD_cons_zero, List.getD_cons_succ]
          | succ i =>
              have h2 : i + 1 < (statusChainFrom u.status (u2 :: us2)).length := by
                simp [statusChainFrom] at h ⊢
                omega
              simp only [statusChainFrom, List.getD_cons_succ]
              exact ih u.status i h2

/-- C9: after M sequential status updates to an Application whose
history starts empty, statusHistory has exactly M entries; every update
only appends (the existing entries survive unchanged); and each entry
after the first records the preceding entry's status as its
previousStatus. -/
theorem status_history_append_only (a : AppRow) (us : List ApplicationTracker.StatusUpdate)
    (h : a.statusHistory = []) :
    ((ApplicationTracker.applyStatusUpdates a us).statusHistory).length = us.length
    ∧ (∀ b : AppRow, ∀ u : ApplicationTracker.StatusUpdate, ∃ e : HistoryEntry,
        (ApplicationTracker.applyStatusUpdate b u).statusHistory = b.statusHistory ++ [e])
    ∧ ∀ i : Nat,
        i + 1 < ((ApplicationTracker.applyStatusUpdates a us).statusHistory).length →
          (((ApplicationTracker.applyStatusUpdates a us).statusHistory).getD (i + 1)
              histDefault).previousStatus
            = (((ApplicationTracker.applyStatusUpdates a us).statusHistory).getD i
                histDefault).status := by
  have hh := applyStatusUpdates_history us a
  rw [h] at hh
  simp only [List.nil_append] at hh
  refine ⟨?_, ?_, ?_⟩
  · rw [hh, statusChainFrom_length]
  · intro b u
    exact ⟨⟨u.status, u.lastChecked, b.status⟩, rfl⟩
  · intro i hi
    rw [hh] at hi ⊢
    exact statusChainFrom_chain us a.status i hi

/-- Witness for status_history_append_only: two sequential updates on a
fresh Application give a history of length two. -/
theorem status_history_witness :
    wAppC9.statusHistory = []
    ∧ ((ApplicationTracker.applyStatusUpdates wAppC9 wUpdatesC9).statusHistory).length = 2 :=
  ⟨rfl, ((status_history_append_only wAppC9 wUpdatesC9 rfl).1).trans rfl⟩

/-- C2 counterexample: two firings of the jobScraping kind before any
completion leave two executions of that kind running concurrently —
nothing in the scheduler skips the second firing. -/
theorem single_flight_cex :
    Scheduler.concurrent (Scheduler.runEvents cexSchedTrace ⟨[]⟩) "jobScraping" = 2
    ∧ ¬ Scheduler.concurrent (Scheduler.runEvents cexSchedTrace ⟨[]⟩) "jobScraping" ≤ 1 := by
  exact ⟨rfl, by decide⟩

/-- C2 (amended): a scheduled firing or manual trigger of a task kind is
never skipped: it unconditionally starts a new execution, so the number
of in-flight executions of that kind always grows by one, even when a
previous invocation is still running. -/
theorem firing_never_skipped (kind : String) (s : Scheduler.TasksState) :
    Scheduler.concurrent (Scheduler.stepEvent (Scheduler.SchedEvent.fire kind) s) kind
      = Scheduler.concurrent s kind + 1 := by
  simp [Scheduler.concurrent, Scheduler.stepEvent, List.count_cons_self]

/-- Exhaustive case analysis behind the unattended-challenge theorem:
the mode is a Boolean and the challenge flags are finite. -/
theorem challenge_case_analysis :
    ∀ b : Bool, ∀ ch : ChallengeFlags, anyChallenge ch = true →
      (b = false → isChallengeThrow (LinkedInAuth.handleLoginChallenges b ch) = true)
      ∧ (b = true → blockedAtLeastOnce (LinkedInAuth.handleLoginChallenges b ch) = true) := by
  decide

/-- C5: when any challenge condition is detected, headless mode makes
handleLoginChallenges throw one of the four challenge-specific error
messages instead of blocking, while interactive mode makes it complete
after blocking on operator input at least once instead of failing. -/
theorem unattended_challenge_fails_fast (env : Option String) (ch : ChallengeFlags)
    (hch : anyChallenge ch = true) :
    (interactiveMode env = false →
      isChallengeThrow (LinkedInAuth.handleLoginChallenges (interactiveMode env) ch) = true)
    ∧ (interactiveMode env = true →
      blockedAtLeastOnce (LinkedInAuth.handleLoginChallenges (interactiveMode env) ch) = true) :=
  challenge_case_analysis (interactiveMode env) ch hch

/-- Witness for unattended_challenge_fails_fast: HEADLESS_MODE set to
true and a CAPTCHA present. -/
theorem unattended_challenge_witness :
    anyChallenge ⟨false, false, true, false, false⟩ = true
    ∧ interactiveMode (some "true") = false
    ∧ isChallengeThrow (LinkedInAuth.handleLoginChallenges (interactiveMode (some "true"))
        ⟨false, false, true, false, false⟩) = true :=
  ⟨by decide, by decide,
    (unattended_challenge_fails_fast (some "true") ⟨false, false, true, false, false⟩
      (by decide)).1 (by decide)⟩

/-- The retry loop calls login at most once per remaining attempt. -/
theorem attemptLoop_calls_le (attempts : Nat → LinkedInAuth.LoginAttemptOutcome) :
    ∀ remaining n : Nat, ∀ ds : List (Nat × Nat), ∀ rl : Nat,
      (LinkedInAuth.attemptLoop attempts n remaining ds rl).loginCalls ≤ n + remaining := by
  intro remaining
  induction remaining with
  | zero => intro n ds rl; simp [LinkedInAuth.attemptLoop]
  | succ r ih =>
      intro n ds rl
      simp only [LinkedInAuth.attemptLoop]
      cases hatt : attempts n with
      | success => dsimp only; omega
      | completedNotLoggedIn =>
          dsimp only
          split
          · exact Nat.le_trans (ih (n + 1) _ _) (by omega)
          · exact Nat.le_trans (ih (n + 1) _ _) (by omega)
      | threw msg =>
          dsimp only
          split
          · exact Nat.le_trans (ih (n + 1) _ _) (by omega)
          · exact Nat.le_trans (ih (n + 1) _ _) (by omega)

/-- Every delay the retry loop records is drawn from one of the two
fixed ranges of the source. -/
theorem attemptLoop_delays (attempts : Nat → LinkedInAuth.LoginAttemptOutcome) :
    ∀ remaining n : Nat, ∀ ds : List (Nat × Nat), ∀ rl : Nat,
      (∀ d ∈ ds, d = (5000, 10000) ∨ d = (10000, 15000)) →
      ∀ d ∈ (LinkedInAuth.attemptLoop attempts n remaining ds rl).delays,
        d = (5000, 10000) ∨ d = (10000, 15000) := by
  intro remaining
  induction remaining with
  | zero =>
      intro n ds rl hds
      simpa [LinkedInAuth.attemptLoop] using hds
  | succ r ih =>
      intro n ds rl hds
      simp only [LinkedInAuth.attemptLoop]
      cases hatt : attempts n with
      | success => simpa using hds
      | completedNotLoggedIn =>
          dsimp only
          split
          · exact ih (n + 1) ds rl hds
          · apply ih (n + 1) _ rl
            intro d hd
            rcases List.mem_append.1 hd with h1 | h1
            · exact hds d h1
            · left
              simpa using h1
      | threw msg =>
          dsimp only
          split
          · exact ih (n + 1) ds _ hds
          · apply ih (n + 1) _ _
            intro d hd
            rcases List.mem_append.1 hd with h1 | h1
            · exact hds d h1
            · right
              simpa using h1

/-- A true return from the retry loop pins a successful login attempt
within the allowed window. -/
theorem attemptLoop_success (attempts : Nat → LinkedInAuth.LoginAttemptOutcome) :
    ∀ remaining n : Nat, ∀ ds : List (Nat × Nat), ∀ rl : Nat,
      (LinkedInAuth.attemptLoop attempts n remaining ds rl).result = true →
        ∃ k : Nat, n ≤ k ∧ k < n + remaining ∧ attempts k = .success := by
  intro remaining
  induction remaining with
  | zero =>
      intro n ds rl h
      simp [LinkedInAuth.attemptLoop] at h
  | succ r ih =>
      intro n ds rl h
      simp only [LinkedInAuth.attemptLoop] at h
      cases hatt : attempts n with
      | success => exact ⟨n, Nat.le_refl n, by omega, hatt⟩
      | completedNotLoggedIn =>
          rw [hatt] at h
          dsimp only at h
          split at h <;>
            · obtain ⟨k, hk1, hk2, hk3⟩ := ih (n + 1) _ _ h
              exact ⟨k, by omega, by omega, hk3⟩
      | threw msg =>
          rw [hatt] at h
          dsimp only at h
          split at h <;>
            · obtain ⟨k, hk1, hk2, hk3⟩ := ih (n + 1) _ _ h
              exact ⟨k, by omega, by omega, hk3⟩

/-- C6 (amended): ensureLoggedIn calls login at most 3 times; the
between-attempt delays are drawn from the two fixed ranges 5-10 s and
10-15 s, identical for every retry rather than growing; a true return
needs a verified session or a successful attempt within the window, so
exhaustion reports failure as a false return (never a throw); and
trackApplications behaves identically whatever ensureLoggedIn
returned — the caller ignores the result and proceeds. -/
theorem auth_retry_amended (pageReady alreadyVerified : Bool)
    (attempts : Nat → LinkedInAuth.LoginAttemptOutcome) :
    (LinkedInAuth.ensureLoggedIn pageReady alreadyVerified attempts).loginCalls ≤ 3
    ∧ (∀ d ∈ (LinkedInAuth.ensureLoggedIn pageReady alreadyVerified attempts).delays,
        d = (5000, 10000) ∨ d = (10000, 15000))
    ∧ ((LinkedInAuth.ensureLoggedIn pageReady alreadyVerified attempts).result = true →
        alreadyVerified = true ∨ ∃ k : Nat, k < 3 ∧ attempts k = .success)
    ∧ (∀ navFails : Bool, ∀ today : Int,
        ∀ outcomes : Nat → ApplicationTracker.TrackOutcome, ∀ s : Store,
        ApplicationTracker.trackApplications false navFails today outcomes s
          = ApplicationTracker.trackApplications true navFails today outcomes s) := by
  refine ⟨?_, ?_, ?_, fun _ _ _ _ => rfl⟩
  · cases pageReady with
    | false => simp [LinkedInAuth.ensureLoggedIn]
    | true =>
        cases alreadyVerified with
        | true => simp [LinkedInAuth.ensureLoggedIn]
        | false =>
            have h := attemptLoop_calls_le attempts 3 0 [] 0
            simpa [LinkedInAuth.ensureLoggedIn] using h
  · cases pageReady with
    | false => simp [LinkedInAuth.ensureLoggedIn]
    | true =>
        cases alreadyVerified with
        | true => simp [LinkedInAuth.ensureLoggedIn]
        | false =>
            intro d hd
            refine attemptLoop_delays attempts 3 0 [] 0 (by simp) d ?_
            simpa [LinkedInAuth.ensureLoggedIn] using hd
  · cases pageReady with
    | false =>
        intro h
        simp [LinkedInAuth.ensureLoggedIn] at h
    | true =>
        cases alreadyVerified with
        | true => exact fun _ => Or.inl rfl
        | false =>
            intro h
            right
            obtain ⟨k, _, hk2, hk3⟩ := attemptLoop_success attempts 3 0 [] 0
              (by simpa [LinkedInAuth.ensureLoggedIn] using h)
            exact ⟨k, by omega, hk3⟩

/-- C6 counterexample: every login attempt throws the
email-verification challenge error, yet ensureLoggedIn calls login all
3 times — the challenge is retried like any other failure — and the two
between-attempt delay ranges are equal (10-15 s twice), not growing;
the exhausted run returns false, and a tracking run started after such
a failed login still proceeds and processes its applications. -/
theorem auth_challenge_retried_cex :
    cexLoginAttempts 0 = LinkedInAuth.LoginAttemptOutcome.threw "Email verification required"
    ∧ LinkedInAuth.ensureLoggedIn true false cexLoginAttempts
        = ⟨false, 3, [(10000, 15000), (10000, 15000)], 2⟩
    ∧ (ApplicationTracker.trackApplications false false 0 cexTrackOutcomesC6 c6Store).1
        = .ok (1, 0, 0) := by
  exact ⟨rfl, rfl, rfl⟩

/-- Witness for auth_retry_amended: a first-attempt success. -/
theorem auth_retry_witness :
    (LinkedInAuth.ensureLoggedIn true false witAttemptsC6).loginCalls ≤ 3
    ∧ (false = true ∨ ∃ k : Nat, k < 3
        ∧ witAttemptsC6 k = LinkedInAuth.LoginAttemptOutcome.success) :=
  ⟨(auth_retry_amended true false witAttemptsC6).1,
   (auth_retry_amended true false witAttemptsC6).2.2.1 (by decide)⟩

/-- C7 (code bug): every discovery run fails before scraping anything.
scrapeJobs passes the configured maxJobs into the `page` parameter of
scrapeJobListings, whose own maxJobs then defaults to 100, so the first
loop iteration raises a TypeError on page.waitForSelector; whatever
maxJobs was configured, the run aborts with an error RunOutcome, the
jobs table is untouched, and the three-condition termination heuristic
of the listing loop is never exercised. -/
theorem discovery_run_crashes (maxJobsCfg : Nat) (today : Int) (s : Store) :
    (JobScraper.scrapeJobs true [] true maxJobsCfg today s).1
        = .error "page.waitForSelector is not a function"
    ∧ ((JobScraper.scrapeJobs true [] true maxJobsCfg today s).2).jobs = s.jobs
    ∧ ((JobScraper.scrapeJobs true [] true maxJobsCfg today s).2).scrapingLogs
        = s.scrapingLogs
            ++ [⟨"job_scrape", "error", 0, 0,
                  some "page.waitForSelector is not a function"⟩] := by
  exact ⟨rfl, rfl, rfl⟩
